import Mathlib

/-!
# VSHater — verification of the challenge / encryption core

Shallow embedding of the VSHater VS Code extension (TypeScript sources:
`src/encryption.ts`, `src/server.ts`, `src/extension.ts` and the full
challenge page embedded in `getChallengeHTML`).

Modelling conventions, used throughout:

* A JavaScript string is modelled as `List Nat`, one entry per UTF-16 code
  unit (this is exactly what `charCodeAt` / `String.fromCharCode` see; it is
  also the only faithful model, since JS strings may contain lone surrogate
  values that Lean's `String` cannot).
* Normalised landmark coordinates are modelled as exact rationals `ℚ`.  The
  source computes with IEEE doubles; the claims under check never probe
  rounding behaviour, so the exact-arithmetic reading is used.
* `Math.sqrt d < t` (for `t > 0`, `d ≥ 0`) is embedded as the equivalent
  exact comparison `d < t * t`; likewise the elbow-angle comparison
  `acos(clamp(cos)) * 180 / π < 120` is embedded as its exact rational
  characterisation (see `angleLt120` below).
* Fallible operations return `Option`.
-/

namespace VSHater

/-! ## encryption.ts — the XOR + Base64 cipher (active variant)

Embeds `ENCRYPTION_KEY`, `xorEncrypt`, `xorDecrypt`, `encryptContent`,
`decryptContent` and `isEncrypted` from `src/encryption.ts` (the variant
used by `extension.ts`, which calls `encryptContent(content)` with a single
argument).  `Buffer.from(s, 'binary')` truncates each UTF-16 code unit to
its low byte (`% 256`); `toString('base64')` / `Buffer.from(_, 'base64')`
are standard Base64 with `=` padding (character code 61). -/

/-- Code units of `'vshater_encryption_key_42'` (`ENCRYPTION_KEY`). -/
def KEY : List Nat :=
  [118, 115, 104, 97, 116, 101, 114, 95, 101, 110, 99, 114, 121, 112, 116,
   105, 111, 110, 95, 107, 101, 121, 95, 52, 50]

/-- Code units of the marker `'🔒VSHATER_ENCRYPTED🔒'`.  `🔒` (U+1F512) is the
surrogate pair `0xD83D 0xDD12` = `55357 56594`, so `marker.length = 21` in JS. -/
def MARKER : List Nat :=
  [55357, 56594, 86, 83, 72, 65, 84, 69, 82, 95, 69, 78, 67, 82, 89, 80, 84,
   69, 68, 55357, 56594]

/-- One step of `xorEncrypt`'s loop: `String.fromCharCode(charCode ^ keyCode)`
with `keyCode = key.charCodeAt(i % key.length)`; `String.fromCharCode`
reduces its argument mod 2^16. -/
def xorEncryptFrom (key : List Nat) : Nat → List Nat → List Nat
  | _, [] => []
  | i, c :: cs => ((c ^^^ key.getD (i % key.length) 0) % 65536) ::
      xorEncryptFrom key (i + 1) cs

/-- `xorEncrypt(text, key)` from `src/encryption.ts`. -/
def xorEncrypt (text key : List Nat) : List Nat := xorEncryptFrom key 0 text

/-- `Buffer.from(s, 'binary')`: each code unit is truncated to its low byte. -/
def toBytes (l : List Nat) : List Nat := l.map (· % 256)

/-- Base64 alphabet: sextet index to character code
(`A-Z`, `a-z`, `0-9`, `+`, `/`). -/
def sextetToChar (n : Nat) : Nat :=
  if n < 26 then 65 + n
  else if n < 52 then 97 + (n - 26)
  else if n < 62 then 48 + (n - 52)
  else if n = 62 then 43
  else 47

/-- Inverse Base64 alphabet lookup (character code to sextet). -/
def charToSextet (c : Nat) : Nat :=
  if 65 ≤ c ∧ c ≤ 90 then c - 65
  else if 97 ≤ c ∧ c ≤ 122 then 26 + (c - 97)
  else if 48 ≤ c ∧ c ≤ 57 then 52 + (c - 48)
  else if c = 43 then 62
  else if c = 47 then 63
  else 0

/-- `Buffer.toString('base64')`: standard Base64 of a byte list, with `=`
(code 61) padding. -/
def base64Encode : List Nat → List Nat
  | [] => []
  | [a] => [sextetToChar (a / 4), sextetToChar (a % 4 * 16), 61, 61]
  | [a, b] => [sextetToChar (a / 4), sextetToChar (a % 4 * 16 + b / 16),
      sextetToChar (b % 16 * 4), 61]
  | a :: b :: c :: rest =>
      sextetToChar (a / 4) :: sextetToChar (a % 4 * 16 + b / 16) ::
      sextetToChar (b % 16 * 4 + c / 64) :: sextetToChar (c % 64) ::
      base64Encode rest

/-- `Buffer.from(s, 'base64')` on well-formed (encoder-produced) Base64. -/
def base64Decode : List Nat → List Nat
  | c1 :: c2 :: c3 :: c4 :: rest =>
      let s1 := charToSextet c1
      let s2 := charToSextet c2
      if c3 = 61 then [s1 * 4 + s2 / 16]
      else
        let s3 := charToSextet c3
        if c4 = 61 then [s1 * 4 + s2 / 16, s2 % 16 * 16 + s3 / 4]
        else (s1 * 4 + s2 / 16) :: (s2 % 16 * 16 + s3 / 4) ::
          (s3 % 4 * 64 + charToSextet c4) :: base64Decode rest
  | _ => []

/-- `String.prototype.startsWith`, on code-unit lists (first argument is the
candidate prefix). -/
def startsWithUnits : List Nat → List Nat → Bool
  | [], _ => true
  | _ :: _, [] => false
  | m :: ms, c :: cs => m = c && startsWithUnits ms cs

/-- `encryptContent(content)` from `src/encryption.ts` (XOR + Base64 variant):
XOR with the cycled key, convert to bytes via the `'binary'` encoding,
Base64-encode, and prepend the marker. -/
def encryptContent (content : List Nat) : List Nat :=
  MARKER ++ base64Encode (toBytes (xorEncrypt content KEY))

/-- `decryptContent(content)`: `null` (here `none`) unless the content starts
with the marker; otherwise strip the marker, Base64-decode (the resulting
bytes are the code units of the `'binary'` string), and XOR again
(`xorDecrypt = xorEncrypt`). -/
def decryptContent (content : List Nat) : Option (List Nat) :=
  if startsWithUnits MARKER content then
    some (xorEncrypt (base64Decode (content.drop MARKER.length)) KEY)
  else none

/-- `isEncrypted(content)` from `src/encryption.ts`. -/
def isEncrypted (content : List Nat) : Bool := startsWithUnits MARKER content

/-! ## server.ts — session handling and the `POST /complete` endpoint -/

/-- The `ChallengeSession` interface from `src/server.ts` (the two callback
fields are represented by the invocation log in `CompleteResult`). -/
structure ChallengeSession where
  fileUri : String
  fileName : String
deriving DecidableEq

/-- An HTTP response of the `/complete` endpoint: `writeHead` status plus the
`success` field of the JSON body. -/
structure CompleteResponse where
  status : Nat
  success : Bool
deriving DecidableEq

/-- Outcome of one `POST /complete` request: the response, the module-level
`session` variable afterwards, and the list of `onComplete` invocations the
request performed (session, argument), in order. -/
structure CompleteResult where
  response : CompleteResponse
  sessionAfter : Option ChallengeSession
  completions : List (ChallengeSession × Bool)
deriving DecidableEq

/-- The `req.on('end', ...)` body of the `POST /complete` route in
`startServer` (`src/server.ts`).  `parseOk` is the outcome of the platform
built-in `JSON.parse(body)`: `true` when the body is well-formed JSON (no
throw), `false` when it throws.  On success: 200 / `success:true`, then
`if (session) { session.onComplete(true); session = null; }`.  On a parse
failure: 400 / `success:false`, the `session` variable untouched. -/
def handleComplete (parseOk : Bool) (session : Option ChallengeSession) :
    CompleteResult :=
  if parseOk then
    match session with
    | some sess => ⟨⟨200, true⟩, none, [(sess, true)]⟩
    | none => ⟨⟨200, true⟩, none, []⟩
  else ⟨⟨400, false⟩, session, []⟩

/-- `setSession` from `src/server.ts`. -/
def setSession (s : ChallengeSession) (_old : Option ChallengeSession) :
    Option ChallengeSession := some s

/-- `clearSession` from `src/server.ts`. -/
def clearSession (_old : Option ChallengeSession) : Option ChallengeSession :=
  none

/-! ## The Fisher–Yates shuffle and the challenge list (challenge page server) -/

/-- One entry of `ALL_CHALLENGES`. -/
structure ChallengeEntry where
  path : String
  pose : String
  description : String
deriving DecidableEq

/-- `ALL_CHALLENGES` from the challenge page server. -/
def ALL_CHALLENGES : List ChallengeEntry :=
  [⟨"/assets/67.jpg", "67hands", "67 HANDS - Wave both hands up and down rapidly"⟩,
   ⟨"/assets/flight-emote.jpg", "fanum", "FANUM TAX - Stick out tongue and shake head"⟩,
   ⟨"/assets/monkey.jpg", "monkeythink", "MONKEY THINK - Put finger on your lip"⟩,
   ⟨"/assets/khaby.jpg", "khaby", "KHABY LAME - Palms up shrug with bent elbows"⟩,
   ⟨"/assets/mewing.jpg", "mewing", "MEWING - Point to jawline with lips closed"⟩,
   ⟨"/assets/monkeyhappy.jpg", "monkeyhappy", "MONKEY HAPPY - Smile wide and point up"⟩,
   ⟨"/assets/dab.jpg", "dab", "DAB - Tuck face into elbow, extend other arm out"⟩]

/-- The destructuring swap `[shuffled[i], shuffled[j]] = [shuffled[j], shuffled[i]]`.
In the source both indices are always in range (`j = floor(random * (i + 1))`
with `random < 1`, so `0 ≤ j ≤ i < length`); the fallback branch is dead and
merely makes the function total. -/
def swapNodes {α : Type} (l : List α) (i j : Nat) : List α :=
  match l.get? i, l.get? j with
  | some a, some b => (l.set i b).set j a
  | _, _ => l

/-- The `for (let i = length - 1; i > 0; i--)` loop of `shuffleArray`:
process index `i`, then continue with `i - 1`, stopping at `i = 0`.
`draws i` models `Math.floor(Math.random() * (i + 1))` for loop index `i`. -/
def fisherYatesAux {α : Type} (draws : Nat → Nat) : List α → Nat → List α
  | l, 0 => l
  | l, i + 1 => fisherYatesAux draws (swapNodes l (i + 1) (draws (i + 1))) i

/-- `shuffleArray` (Fisher–Yates) from the challenge page server. -/
def shuffleArray {α : Type} (l : List α) (draws : Nat → Nat) : List α :=
  fisherYatesAux draws l (l.length - 1)

/-- The three stages embedded into the `GET /` response by `getChallengeHTML`:
`challenges[0]`, `challenges[1]`, `challenges[2]` of
`shuffleArray(ALL_CHALLENGES)`. -/
def challengeStages (draws : Nat → Nat) : List ChallengeEntry :=
  (shuffleArray ALL_CHALLENGES draws).take 3

/-! ## extension.ts — `handleFileOpen` guards -/

/-- ECMAScript whitespace recognised by `String.prototype.trim`
(WhiteSpace ∪ LineTerminator code points). -/
def jsWhitespace (c : Nat) : Bool :=
  c = 9 || c = 10 || c = 11 || c = 12 || c = 13 || c = 32 || c = 160 ||
  c = 5760 || (8192 ≤ c && c ≤ 8202) || c = 8232 || c = 8233 || c = 8239 ||
  c = 8287 || c = 12288 || c = 65279

/-- `String.prototype.trim`: strip leading and trailing whitespace. -/
def trimUnits (l : List Nat) : List Nat :=
  ((l.dropWhile jsWhitespace).reverse.dropWhile jsWhitespace).reverse

/-- Outcome of `handleFileOpen`: the workspace edit applied to the document
(`none` = content untouched), and whether a challenge was opened
(`startPoseChallenge` / `openChallengeBrowser` reached). -/
structure OpenResult where
  edit : Option (List Nat)
  challengeOpened : Bool
deriving DecidableEq

/-- `handleFileOpen(document)` from `src/extension.ts`: guard chain
(non-`file:` scheme, skip patterns, already encrypted, blank after trim,
over 1,000,000 characters) and, when no guard fires, replacement of the
content by `encryptContent(content)` followed by the challenge.
`schemeIsFile` models `document.uri.scheme === 'file'` and `skipPatternHit`
models `skipPatterns.some(p => filePath.includes(p))`. -/
def handleFileOpen (schemeIsFile skipPatternHit : Bool) (content : List Nat) :
    OpenResult :=
  if schemeIsFile = false then ⟨none, false⟩
  else if skipPatternHit then ⟨none, false⟩
  else if isEncrypted content then ⟨none, false⟩
  else if (trimUnits content).length = 0 then ⟨none, false⟩
  else if 1000000 < content.length then ⟨none, false⟩
  else ⟨some (encryptContent content), true⟩

/-! ## Gesture classifiers (challenge page script)

Landmark coordinates are exact rationals; a frame's pose landmarks
(`results.poseLandmarks`) and face landmarks (`currentFaceLandmarks`) are
partial maps from the MediaPipe index to a landmark, `none` meaning the
entry is absent (`undefined`).  A `null` or empty `currentFaceLandmarks`
array is modelled as the `Option` being `none`. -/

/-- One landmark: normalised position plus visibility score. -/
structure Pt where
  x : ℚ
  y : ℚ
  visibility : ℚ
deriving DecidableEq

/-- `results.poseLandmarks`, as a partial map from pose-landmark index. -/
def PoseMap : Type := Nat → Option Pt

/-- One `currentFaceLandmarks` array, as a partial map from FaceMesh index. -/
def FaceMap : Type := Nat → Option Pt

/-- `Math.max` of two numbers. -/
def qmax (a b : ℚ) : ℚ := if a ≤ b then b else a

/-- `Math.min` of two numbers. -/
def qmin (a b : ℚ) : ℚ := if a ≤ b then a else b

/-- `Math.abs`. -/
def qabs (a : ℚ) : ℚ := if a < 0 then -a else a

/-- Squared Euclidean distance of two landmarks. -/
def sqDist (a b : Pt) : ℚ := (a.x - b.x) ^ 2 + (a.y - b.y) ^ 2

/-- The comparison `dist(a, b) < t` from the page script, for a positive
threshold `t`: since both sides are non-negative this is exactly
`sqDist a b < t * t`, which stays inside `ℚ`. -/
def distLt (a b : Pt) (t : ℚ) : Bool := sqDist a b < t * t

/-- The history push of `check67Hands` / `checkFanumTax`:
`hist.push(v); if (hist.length > 30) hist.shift();`. -/
def pushCap (hist : List ℚ) (v : ℚ) : List ℚ :=
  let h := hist ++ [v]
  if 30 < h.length then h.tail else h

/-- Loop body of `countChanges` (both the wrist version in `check67Hands`,
noise floor 0.015, and the head version in `checkFanumTax`, noise floor
0.008): walking the window, count sign flips between consecutive deltas
whose magnitude exceeds the floor. -/
def countChangesAux (fl : ℚ) : ℚ → Int → List ℚ → Nat
  | _, _, [] => 0
  | prev, lastDir, v :: rest =>
    let diff := v - prev
    if fl < qabs diff then
      let dir : Int := if 0 < diff then 1 else -1
      (if lastDir ≠ 0 ∧ dir ≠ lastDir then 1 else 0) +
        countChangesAux fl v dir rest
    else countChangesAux fl v lastDir rest

/-- `countChanges(hist)` with noise floor `fl`. -/
def countChanges (fl : ℚ) : List ℚ → Nat
  | [] => 0
  | v :: rest => countChangesAux fl v 0 rest

/-- `Math.max(...hist)` (only ever used on non-empty windows). -/
def listMax : List ℚ → ℚ
  | [] => 0
  | v :: rest => rest.foldl qmax v

/-- `Math.min(...hist)` (only ever used on non-empty windows). -/
def listMin : List ℚ → ℚ
  | [] => 0
  | v :: rest => rest.foldl qmin v

/-- `getRange(hist) = Math.max(...hist) - Math.min(...hist)`. -/
def getRange (hist : List ℚ) : ℚ := listMax hist - listMin hist

/-- Verdict part of `check67Hands` on the post-push windows: no verdict
below 15 samples (the source checks the left window's length; the two
windows always have equal length since they are pushed in lockstep), then
amplitude gate (`leftRange < 0.08 || rightRange < 0.08` fails), then at
least 3 direction changes on each hand. -/
def verdict67 (lh rh : List ℚ) : Bool :=
  if lh.length < 15 then false
  else if getRange lh < 0.08 ∨ getRange rh < 0.08 then false
  else decide (3 ≤ countChanges 0.015 lh ∧ 3 ≤ countChanges 0.015 rh)

/-- `check67Hands(landmarks)`: takes the wrist landmarks (`landmarks[15]`,
`landmarks[16]`) and the two wrist-Y history buffers; returns the verdict
together with the updated buffers (absent wrists: no push, no match). -/
def check67Hands (leftWrist rightWrist : Option Pt) (lh rh : List ℚ) :
    Bool × List ℚ × List ℚ :=
  match leftWrist, rightWrist with
  | some lw, some rw =>
    let lh' := pushCap lh lw.y
    let rh' := pushCap rh rw.y
    (verdict67 lh' rh', lh', rh')
  | _, _ => (false, lh, rh)

/-- `checkFanumTax(landmarks)`: mouth-open ratio from FaceMesh points 13,
14, 78, 308 and head-shake oscillation of the nose tip (point 1) with
noise floor 0.008, minimum 15 samples, at least 3 direction changes and
range above 0.04.  Returns the verdict and the updated head-X buffer. -/
def checkFanumTax (face : Option FaceMap) (headX : List ℚ) : Bool × List ℚ :=
  match face with
  | none => (false, headX)
  | some fm =>
    match fm 13, fm 14, fm 78, fm 308, fm 1 with
    | some upperLip, some lowerLip, some leftMouth, some rightMouth,
      some noseTip =>
      let mouthWidth := qabs (rightMouth.x - leftMouth.x) + 0.001
      let mouthOpen := qabs (lowerLip.y - upperLip.y)
      let isTongueOut := decide ((0.35 : ℚ) < mouthOpen / mouthWidth)
      let headX' := pushCap headX noseTip.x
      let isShakingHead :=
        if 15 ≤ headX'.length then
          decide (3 ≤ countChanges 0.008 headX' ∧ (0.04 : ℚ) < getRange headX')
        else false
      (isTongueOut && isShakingHead, headX')
    | _, _, _, _, _ => (false, headX)

/-- The per-finger test inside `checkMonkeyThink`: visible index finger
(visibility > 0.3) near a mouth corner (`landmarks[9]` / `landmarks[10]`,
distance < 0.08) or near-below the nose (distance < 0.12 and below it). -/
def fingerNearMouth (lm : PoseMap) (nose : Pt) : Option Pt → Bool
  | none => false
  | some f =>
    if (0.3 : ℚ) < f.visibility then
      (match lm 9 with | some ml => distLt f ml 0.08 | none => false) ||
      (match lm 10 with | some mr => distLt f mr 0.08 | none => false) ||
      (distLt f nose 0.12 && decide (nose.y < f.y))
    else false

/-- `checkMonkeyThink(landmarks)`. -/
def checkMonkeyThink (lm : PoseMap) : Bool :=
  match lm 0 with
  | none => false
  | some nose =>
    fingerNearMouth lm nose (lm 19) || fingerNearMouth lm nose (lm 20)

/-- Exact rational characterisation of `calculateAngle(a, b, c) < 120` from
`checkKhaby`.  The source returns 180 for a degenerate limb (`magBA` or
`magBC` zero), making the comparison false; otherwise the angle is
`acos(clamp(dot / (magBA * magBC))) * 180 / π`, and since `acos` is
strictly decreasing and `cos 120° = -1/2`, the comparison `< 120` holds
iff the clamped cosine exceeds `-1/2`, iff `0 ≤ dot` or
`4 * dot² < |ba|² * |bc|²`. -/
def angleLt120 (a b c : Pt) : Bool :=
  let bax := a.x - b.x
  let bay := a.y - b.y
  let bcx := c.x - b.x
  let bcy := c.y - b.y
  let dot := bax * bcx + bay * bcy
  let qa := bax ^ 2 + bay ^ 2
  let qb := bcx ^ 2 + bcy ^ 2
  if qa = 0 ∨ qb = 0 then false
  else decide (0 ≤ dot) || decide (4 * dot ^ 2 < qa * qb)

/-- `checkKhaby(landmarks)`: all eight of shoulders, elbows, wrists and hips
required; wrist/elbow visibility at least 0.5; wrists below shoulders and
above mid-torso; both elbows bent below 120 degrees. -/
def checkKhaby (lm : PoseMap) : Bool :=
  match lm 11, lm 12, lm 13, lm 14, lm 15, lm 16, lm 23, lm 24 with
  | some leftShoulder, some rightShoulder, some leftElbow, some rightElbow,
    some leftWrist, some rightWrist, some leftHip, some rightHip =>
    if leftWrist.visibility < 0.5 ∨ rightWrist.visibility < 0.5 ∨
        leftElbow.visibility < 0.5 ∨ rightElbow.visibility < 0.5 then false
    else
      let midTorsoY :=
        (leftShoulder.y + rightShoulder.y + leftHip.y + rightHip.y) / 4
      decide (leftShoulder.y < leftWrist.y) &&
      decide (rightShoulder.y < rightWrist.y) &&
      decide (leftWrist.y < midTorsoY) && decide (rightWrist.y < midTorsoY) &&
      angleLt120 leftShoulder leftElbow leftWrist &&
      angleLt120 rightShoulder rightElbow rightWrist
  | _, _, _, _, _, _, _, _ => false

/-- The FaceMesh jawline indices used by `checkMewing`. -/
def jawlinePoints : List Nat :=
  [132, 136, 150, 149, 176, 148, 152, 377, 400, 378, 379, 365, 361]

/-- `checkFingerOnJawline(finger)` from `checkMewing`: visible finger
(visibility ≥ 0.3) in the lower face region (not above the nose tip) within
distance 0.07 of some present jawline point. -/
def fingerOnJawline (fm : FaceMap) (noseTip : Pt) : Option Pt → Bool
  | none => false
  | some f =>
    if f.visibility < 0.3 then false
    else if f.y < noseTip.y then false
    else jawlinePoints.any fun idx =>
      match fm idx with
      | none => false
      | some jp => distLt f jp 0.07

/-- `checkMewing(landmarks)`. -/
def checkMewing (lm : PoseMap) (face : Option FaceMap) : Bool :=
  match face with
  | none => false
  | some fm =>
    match fm 1, fm 152 with
    | some noseTip, some _chin =>
      fingerOnJawline fm noseTip (lm 19) || fingerOnJawline fm noseTip (lm 20)
    | _, _ => false

/-- `isFingerUp(index, wrist)` from `checkMonkeyHappy`: both present,
visibility at least 0.2, finger above the wrist. -/
def isFingerUp : Option Pt → Option Pt → Bool
  | some f, some w =>
    if f.visibility < 0.2 then false else decide (f.y < w.y)
  | _, _ => false

/-- `checkMonkeyHappy(landmarks)`: a smile check on FaceMesh points 61, 291
and 13 which — per the source comment "Default to true if landmarks
missing" — is `true` whenever any of those three points is absent, ANDed
with `isFingerUp` on either side. -/
def checkMonkeyHappy (lm : PoseMap) (face : Option FaceMap) : Bool :=
  match face with
  | none => false
  | some fm =>
    let hasSmile :=
      match fm 61, fm 291, fm 13 with
      | some leftMouthCorner, some rightMouthCorner, some upperLip =>
        decide (leftMouthCorner.y ≤ upperLip.y + 0.02) ||
        decide (rightMouthCorner.y ≤ upperLip.y + 0.02)
      | _, _, _ => true
    hasSmile && (isFingerUp (lm 19) (lm 15) || isFingerUp (lm 20) (lm 16))

/-- `isArmExtended` from `checkDab`: elbow angle above 110 degrees, false on
a degenerate limb.  The 110° threshold has an irrational cosine, so this
predicate is stated over the reals exactly as the source computes it. -/
def IsArmExtended (s e w : Pt) : Prop :=
  let bax : ℝ := ((s.x - e.x : ℚ) : ℝ)
  let bay : ℝ := ((s.y - e.y : ℚ) : ℝ)
  let bcx : ℝ := ((w.x - e.x : ℚ) : ℝ)
  let bcy : ℝ := ((w.y - e.y : ℚ) : ℝ)
  let magBA := Real.sqrt (bax ^ 2 + bay ^ 2)
  let magBC := Real.sqrt (bcx ^ 2 + bcy ^ 2)
  ¬(magBA = 0 ∨ magBC = 0) ∧
    110 < Real.arccos (max (-1) (min 1 ((bax * bcx + bay * bcy) /
      (magBA * magBC)))) * (180 / Real.pi)

/-- `isArmBent` from `checkDab`: elbow angle below 130 degrees, false on a
degenerate limb. -/
def IsArmBent (s e w : Pt) : Prop :=
  let bax : ℝ := ((s.x - e.x : ℚ) : ℝ)
  let bay : ℝ := ((s.y - e.y : ℚ) : ℝ)
  let bcx : ℝ := ((w.x - e.x : ℚ) : ℝ)
  let bcy : ℝ := ((w.y - e.y : ℚ) : ℝ)
  let magBA := Real.sqrt (bax ^ 2 + bay ^ 2)
  let magBC := Real.sqrt (bcx ^ 2 + bcy ^ 2)
  ¬(magBA = 0 ∨ magBC = 0) ∧
    Real.arccos (max (-1) (min 1 ((bax * bcx + bay * bcy) /
      (magBA * magBC)))) * (180 / Real.pi) < 130

/-- `checkDab(landmarks)`: nose, shoulders, elbows and wrists all required;
one arm bent with the nose tucked near its elbow or wrist, the other arm
extended. -/
def CheckDab (lm : PoseMap) : Prop :=
  match lm 0, lm 11, lm 12, lm 13, lm 14, lm 15, lm 16 with
  | some nose, some leftShoulder, some rightShoulder, some leftElbow,
    some rightElbow, some leftWrist, some rightWrist =>
    ((distLt nose leftElbow 0.4 || distLt nose leftWrist 0.3) = true ∧
      IsArmBent leftShoulder leftElbow leftWrist ∧
      IsArmExtended rightShoulder rightElbow rightWrist) ∨
    ((distLt nose rightElbow 0.4 || distLt nose rightWrist 0.3) = true ∧
      IsArmBent rightShoulder rightElbow rightWrist ∧
      IsArmExtended leftShoulder leftElbow leftWrist)
  | _, _, _, _, _, _, _ => False

/-- A pose frame with no landmark present. -/
def emptyPose : PoseMap := fun _ => none

/-- A face-landmark array whose entries are all absent: used to exercise the
smile default of `checkMonkeyHappy`. -/
def faceNoMouth : FaceMap := fun _ => none

/-- A pose frame with only a visible left index finger (19) above the left
wrist (15). -/
def lmFingerUp : PoseMap := fun n =>
  if n = 19 then some ⟨0.5, 0.3, 0.9⟩
  else if n = 15 then some ⟨0.5, 0.6, 0.9⟩
  else none

/-- A 20-sample window alternating between 0.0 and 0.12. -/
def alt20 : List ℚ :=
  [0, 0.12, 0, 0.12, 0, 0.12, 0, 0.12, 0, 0.12,
   0, 0.12, 0, 0.12, 0, 0.12, 0, 0.12, 0, 0.12]

/-- A 20-sample strictly increasing window of large amplitude. -/
def inc20 : List ℚ :=
  [0, 1, 2, 3, 4, 5, 6, 7, 8, 9, 10, 11, 12, 13, 14, 15, 16, 17, 18, 19]

/-! ## Challenge sequencer (page script state machine)

Embeds the per-frame control flow of `onPoseResults`, the stage advance
`advanceToNextImage`, `completeChallenge` and the 2000 ms transition
timeout of the challenge page.  The classifier call
`checkCurrentPose(landmarks)` is factored out as the event payload: a
frame event carries `none` when `results.poseLandmarks` is absent or
empty, and `some b` when landmarks are present and the current stage's
classifier returned `b`.  The timeout armed when a stage matches is the
`timer` event; `validFrom` singles out the traces that can actually occur
(a timer only fires when one was armed). -/

/-- Browser-side events driving the sequencer. -/
inductive Ev where
  | frame (v : Option Bool)
  | timer
deriving DecidableEq

/-- The sequencer state: `imageIndex`, `poseConfidenceCounter`,
`isTransitioning`, `poseDetectionActive`, and whether `completeChallenge`
has fired (the `POST /complete` signal). -/
structure SeqState where
  imageIndex : Nat
  counter : Nat
  transitioning : Bool
  active : Bool
  complete : Bool
deriving DecidableEq

/-- Page-load state: first image, counter 0, detection active. -/
def initSeq : SeqState := ⟨0, 0, false, true, false⟩

/-- `completeChallenge()`: stops detection and posts the completion signal. -/
def completeChallenge (s : SeqState) : SeqState :=
  { s with active := false, complete := true }

/-- `advanceToNextImage()`: below the last stage, advance the cursor and
reset the counter; on the last stage (`imageIndex === 2`), complete. -/
def advanceToNextImage (s : SeqState) : SeqState :=
  if s.imageIndex < 2 then
    { s with imageIndex := s.imageIndex + 1, counter := 0 }
  else if s.imageIndex = 2 then completeChallenge s
  else s

/-- `onPoseResults(results)`: skip when detection is inactive or a
transition is in progress; otherwise, on a match increment the counter and,
at the threshold (5), freeze into the transition; on a no-match or absent
landmarks reset the counter to 0. -/
def stepFrame (s : SeqState) (v : Option Bool) : SeqState :=
  if s.active = false then s
  else if s.transitioning = true then s
  else match v with
    | some true =>
      if 5 ≤ s.counter + 1 then
        { s with counter := s.counter + 1, transitioning := true }
      else { s with counter := s.counter + 1 }
    | some false => { s with counter := 0 }
    | none => { s with counter := 0 }

/-- The `setTimeout` callback armed at the threshold:
`advanceToNextImage(); poseConfidenceCounter = 0; clearMotionHistory();
isTransitioning = false`.  A timer with no armed timeout cannot occur in
the source; it is a no-op here so that `step` is total (see `validFrom`). -/
def stepTimer (s : SeqState) : SeqState :=
  if s.transitioning = true then
    let s' := advanceToNextImage s
    { s' with counter := 0, transitioning := false }
  else s

/-- One event of the sequencer. -/
def step (s : SeqState) : Ev → SeqState
  | Ev.frame v => stepFrame s v
  | Ev.timer => stepTimer s

/-- The state after a trace of events from page load. -/
def run (p : List Ev) : SeqState := p.foldl step initSeq

/-- Traces that can actually occur: a timer event fires only when the
transition timeout is armed. -/
def validFrom : SeqState → List Ev → Bool
  | _, [] => true
  | s, e :: es =>
    (if e = Ev.timer then s.transitioning else true) && validFrom (step s e) es

/-- Sequencer state instrumented with the count `m` of stage-matched
transitions (frames that set `isTransitioning`) and the count `t` of
effective timer firings. -/
structure XState where
  s : SeqState
  m : Nat
  t : Nat

/-- Instrumented step. -/
def stepX (x : XState) (e : Ev) : XState :=
  { s := step x.s e,
    m := x.m + (if x.s.transitioning = false ∧
      (step x.s e).transitioning = true then 1 else 0),
    t := x.t + (if e = Ev.timer ∧ x.s.transitioning = true then 1 else 0) }

/-- Instrumented run. -/
def runX (p : List Ev) : XState := p.foldl stepX ⟨initSeq, 0, 0⟩

/-- Number of stage-matched transitions in a trace. -/
def numMatched (p : List Ev) : Nat := (runX p).m

/-- The event `e`, applied after trace `p`, transitions the current stage
to matched (sets `isTransitioning`). -/
def matchedAt (p : List Ev) (e : Ev) : Prop :=
  (run p).transitioning = false ∧ (run (p ++ [e])).transitioning = true

/-- Count of leading matching-frame events. -/
def leadingTrue : List Ev → Nat
  | Ev.frame (some true) :: rest => leadingTrue rest + 1
  | _ => 0

/-- Count of trailing matching-frame events of a trace. -/
def trailingTrue (p : List Ev) : Nat := leadingTrue p.reverse

/-- One stage of the canonical run: exactly `threshold` = 5 consecutive
matching frames, then the transition timeout fires. -/
def stagePass : List Ev := List.replicate 5 (Ev.frame (some true)) ++ [Ev.timer]

/-- The canonical complete run: three stages, nothing more. -/
def canonicalTrace : List Ev := stagePass ++ stagePass ++ stagePass

/-- The sequencer invariant tying the state to the instrumentation: matched
transitions and timer firings alternate (`m = t` outside transitions,
`m = t + 1` inside, counter frozen at 5 inside), the cursor equals the
number of completed stages (capped at 2), completion and activity are
determined by `t`, and the counter stays below the threshold outside
transitions. -/
def SeqInv (x : XState) : Prop :=
  (x.s.transitioning = true → x.m = x.t + 1 ∧ x.s.counter = 5) ∧
  (x.s.transitioning = false → x.m = x.t) ∧
  x.s.imageIndex = min x.t 2 ∧
  (x.s.complete = true ↔ 3 ≤ x.t) ∧
  (x.s.active = true ↔ x.t < 3) ∧
  x.t ≤ 3 ∧
  (x.s.transitioning = false → x.s.counter ≤ 4) ∧
  (x.s.active = false → x.s.counter = 0)

end VSHater

namespace VSHater

/-! ### Supporting lemmas for the cipher -/

theorem startsWithUnits_append (m rest : List Nat) :
    startsWithUnits m (m ++ rest) = true := by
  induction m with
  | nil => rfl
  | cons c cs ih => simpa [startsWithUnits] using ih

theorem charToSextet_sextetToChar {n : Nat} (h : n < 64) :
    charToSextet (sextetToChar n) = n := by
  unfold sextetToChar charToSextet
  split_ifs <;> omega

theorem sextetToChar_ne_61 (n : Nat) : sextetToChar n ≠ 61 := by
  unfold sextetToChar
  split_ifs <;> omega

theorem base64_roundtrip :
    ∀ l : List Nat, (∀ x ∈ l, x < 256) → base64Decode (base64Encode l) = l
  | [], _ => rfl
  | [a], h => by
    have ha : a < 256 := h a (by simp)
    have h1 : a / 4 < 64 := by omega
    have h2 : a % 4 * 16 < 64 := by omega
    simp only [base64Encode, base64Decode, if_true]
    rw [charToSextet_sextetToChar h1, charToSextet_sextetToChar h2]
    simp only [List.cons.injEq, and_true]
    omega
  | [a, b], h => by
    have ha : a < 256 := h a (by simp)
    have hb : b < 256 := h b (by simp)
    have h1 : a / 4 < 64 := by omega
    have h2 : a % 4 * 16 + b / 16 < 64 := by omega
    have h3 : b % 16 * 4 < 64 := by omega
    simp only [base64Encode, base64Decode]
    rw [if_neg (sextetToChar_ne_61 _)]
    simp only [if_true]
    rw [charToSextet_sextetToChar h1, charToSextet_sextetToChar h2,
      charToSextet_sextetToChar h3]
    simp only [List.cons.injEq, and_true]
    omega
  | a :: b :: c :: d :: rest, h => by
    have ha : a < 256 := h a (by simp)
    have hb : b < 256 := h b (by simp)
    have hc : c < 256 := h c (by simp)
    have h1 : a / 4 < 64 := by omega
    have h2 : a % 4 * 16 + b / 16 < 64 := by omega
    have h3 : b % 16 * 4 + c / 64 < 64 := by omega
    have h4 : c % 64 < 64 := by omega
    have ih := base64_roundtrip (d :: rest) (fun x hx => h x (by simp [hx]))
    simp only [base64Encode, base64Decode]
    rw [if_neg (sextetToChar_ne_61 _), if_neg (sextetToChar_ne_61 _),
      charToSextet_sextetToChar h1, charToSextet_sextetToChar h2,
      charToSextet_sextetToChar h3, charToSextet_sextetToChar h4, ih]
    simp only [List.cons.injEq, and_true, and_self]
    exact ⟨by omega, by omega, by omega⟩
  | [a, b, c], h => by
    have ha : a < 256 := h a (by simp)
    have hb : b < 256 := h b (by simp)
    have hc : c < 256 := h c (by simp)
    have h1 : a / 4 < 64 := by omega
    have h2 : a % 4 * 16 + b / 16 < 64 := by omega
    have h3 : b % 16 * 4 + c / 64 < 64 := by omega
    have h4 : c % 64 < 64 := by omega
    simp only [base64Encode, base64Decode]
    rw [if_neg (sextetToChar_ne_61 _), if_neg (sextetToChar_ne_61 _),
      charToSextet_sextetToChar h1, charToSextet_sextetToChar h2,
      charToSextet_sextetToChar h3, charToSextet_sextetToChar h4]
    simp only [List.cons.injEq, and_true, and_self]
    exact ⟨by omega, by omega, by omega⟩

theorem key_units_lt : ∀ k ∈ KEY, k < 128 := by decide

theorem getD_lt_of_forall_lt :
    ∀ (l : List Nat) (n b : Nat), 0 < b → (∀ x ∈ l, x < b) → l.getD n 0 < b
  | [], _, _, hb, _ => by simpa using hb
  | a :: _, 0, _, _, hl => by simpa using hl a (by simp)
  | _ :: as, n + 1, b, hb, hl =>
    by simpa using getD_lt_of_forall_lt as n b hb (fun x hx => hl x (by simp [hx]))

theorem xorEncryptFrom_units_lt {l : List Nat} (hl : ∀ c ∈ l, c < 256) :
    ∀ i, ∀ c ∈ xorEncryptFrom KEY i l, c < 256 := by
  induction l with
  | nil => intro i c hc; simp [xorEncryptFrom] at hc
  | cons a as ih =>
    intro i c hc
    have ha : a < 256 := hl a (by simp)
    have hk : KEY.getD (i % KEY.length) 0 < 128 :=
      getD_lt_of_forall_lt KEY (i % KEY.length) 128 (by omega) key_units_lt
    simp only [xorEncryptFrom, List.mem_cons] at hc
    rcases hc with hc | hc
    · subst hc
      have : a ^^^ KEY.getD (i % KEY.length) 0 < 256 := by
        have h256 : (256 : Nat) = 2 ^ 8 := by norm_num
        rw [h256] at ha ⊢
        exact Nat.xor_lt_two_pow ha (by omega)
      omega
    · exact ih (fun c hc => hl c (by simp [hc])) (i + 1) c hc

theorem xorEncryptFrom_involutive {l : List Nat} (hl : ∀ c ∈ l, c < 65536) :
    ∀ i, xorEncryptFrom KEY i (xorEncryptFrom KEY i l) = l := by
  induction l with
  | nil => intro i; rfl
  | cons a as ih =>
    intro i
    have ha : a < 65536 := hl a (by simp)
    have hk : KEY.getD (i % KEY.length) 0 < 65536 :=
      getD_lt_of_forall_lt KEY (i % KEY.length) 65536 (by omega)
        (fun k hkm => lt_trans (key_units_lt k hkm) (by omega))
    have hxor : a ^^^ KEY.getD (i % KEY.length) 0 < 65536 := by
      have h65536 : (65536 : Nat) = 2 ^ 16 := by norm_num
      rw [h65536] at ha hk ⊢
      exact Nat.xor_lt_two_pow ha hk
    simp only [xorEncryptFrom]
    rw [Nat.mod_eq_of_lt hxor, Nat.xor_cancel_right, Nat.mod_eq_of_lt ha,
      ih (fun c hc => hl c (by simp [hc])) (i + 1)]

end VSHater

namespace VSHater

/-! ### Cipher round-trip (claim C9) -/

theorem toBytes_eq_self {l : List Nat} (h : ∀ x ∈ l, x < 256) :
    toBytes l = l := by
  unfold toBytes
  induction l with
  | nil => rfl
  | cons a as ih =>
    have := h a (by simp)
    simp only [List.map_cons, Nat.mod_eq_of_lt this, List.cons.injEq, true_and]
    exact ih fun x hx => h x (by simp [hx])

/-- C9, counterexample: the claim "decryptContent (encryptContent content)
returns content for every string content" fails.  The `'binary'` encoding
inside `encryptContent` truncates UTF-16 code units to one byte, so the
one-character string `'€'` (code unit 8364) does not survive the round trip:
decryption yields the single code unit 172 instead. -/
theorem roundtrip_fails_beyond_byte_range :
    decryptContent (encryptContent [8364]) ≠ some [8364] := by decide

/-- C9, amended: for the XOR + Base64 cipher variant, decryption is a left
inverse of encryption on every content string all of whose UTF-16 code units
are below 256 (in particular on all ASCII and Latin-1 text). -/
theorem decrypt_encrypt_roundtrip (content : List Nat)
    (h : ∀ c ∈ content, c < 256) :
    decryptContent (encryptContent content) = some content := by
  unfold decryptContent encryptContent
  rw [startsWithUnits_append]
  simp only [if_true]
  rw [List.drop_left]
  have hx : ∀ c ∈ xorEncrypt content KEY, c < 256 :=
    xorEncryptFrom_units_lt h 0
  rw [toBytes_eq_self hx, base64_roundtrip _ hx]
  unfold xorEncrypt
  rw [xorEncryptFrom_involutive (fun c hc => lt_trans (h c hc) (by omega)) 0]

/-- C9, witness: the round-trip theorem applied to the concrete content
`"Hi"` (code units 72, 105). -/
theorem decrypt_encrypt_roundtrip_witness :
    (∀ c ∈ [72, 105], c < 256) ∧
      decryptContent (encryptContent [72, 105]) = some [72, 105] :=
  ⟨by decide, decrypt_encrypt_roundtrip [72, 105] (by decide)⟩

/-! ### POST /complete (claims C6 and C7) -/

/-- C6: a `POST /complete` whose body fails to parse as JSON gets status 400
with `success:false`; the session variable is untouched and no callback runs;
and a follow-up well-formed completion on the resulting state still resolves
the session (invoking its `onComplete(true)` and clearing it). -/
theorem malformed_complete_is_harmless (sess : ChallengeSession) :
    (handleComplete false (some sess)).response.status = 400 ∧
    (handleComplete false (some sess)).response.success = false ∧
    (handleComplete false (some sess)).sessionAfter = some sess ∧
    (handleComplete false (some sess)).completions = [] ∧
    handleComplete true ((handleComplete false (some sess)).sessionAfter) =
      ⟨⟨200, true⟩, none, [(sess, true)]⟩ := by
  simp [handleComplete]

/-- C7: a well-formed `POST /complete` with an active session invokes that
session's `onComplete(true)` exactly once and clears the session; with no
active session it is a no-op success (200, `success:true`, no callback, state
unchanged). -/
theorem valid_complete_resolves_once (sess : ChallengeSession) :
    handleComplete true (some sess) = ⟨⟨200, true⟩, none, [(sess, true)]⟩ ∧
    handleComplete true none = ⟨⟨200, true⟩, none, []⟩ := by
  simp [handleComplete]

/-! ### Fisher–Yates shuffle (claim C8) -/

theorem cons_set_perm {α : Type} :
    ∀ (xs : List α) (k : Nat) (a b : α), xs.get? k = some b →
      (b :: xs.set k a).Perm (a :: xs)
  | [], k, _, _, h => by simp at h
  | y :: t, 0, a, b, h => by
    simp only [List.get?_cons_zero, Option.some.injEq] at h
    subst h
    simpa using List.Perm.swap a _ t
  | y :: t, k + 1, a, b, h => by
    simp only [List.get?_cons_succ] at h
    have h1 : (b :: (y :: t).set (k + 1) a).Perm (y :: b :: t.set k a) := by
      simpa using List.Perm.swap y b (t.set k a)
    have h2 : (y :: b :: t.set k a).Perm (y :: a :: t) :=
      List.Perm.cons y (cons_set_perm t k a b h)
    exact (h1.trans h2).trans (List.Perm.swap a y t)

theorem set_set_perm {α : Type} :
    ∀ (l : List α) (i j : Nat) (a b : α), l.get? i = some a →
      l.get? j = some b → ((l.set i b).set j a).Perm l
  | [], i, _, _, _, h, _ => by simp at h
  | x :: t, 0, 0, a, b, hi, hj => by
    simp only [List.get?_cons_zero, Option.some.injEq] at hi hj
    subst hi; subst hj
    simp
  | x :: t, 0, k + 1, a, b, hi, hj => by
    simp only [List.get?_cons_zero, Option.some.injEq] at hi
    simp only [List.get?_cons_succ] at hj
    subst hi
    simpa using cons_set_perm t k _ b hj
  | x :: t, m + 1, 0, a, b, hi, hj => by
    simp only [List.get?_cons_zero, Option.some.injEq] at hj
    simp only [List.get?_cons_succ] at hi
    subst hj
    simpa using cons_set_perm t m _ a hi
  | x :: t, m + 1, k + 1, a, b, hi, hj => by
    simp only [List.get?_cons_succ] at hi hj
    simpa using List.Perm.cons x (set_set_perm t m k a b hi hj)

theorem swapNodes_perm {α : Type} (l : List α) (i j : Nat) :
    (swapNodes l i j).Perm l := by
  unfold swapNodes
  rcases hi : l.get? i with _ | a <;> rcases hj : l.get? j with _ | b <;>
    simp only []
  · exact List.Perm.refl l
  · exact List.Perm.refl l
  · exact List.Perm.refl l
  · exact set_set_perm l i j a b hi hj

theorem fisherYatesAux_perm {α : Type} (draws : Nat → Nat) :
    ∀ (i : Nat) (l : List α), (fisherYatesAux draws l i).Perm l
  | 0, l => List.Perm.refl l
  | i + 1, l =>
    (fisherYatesAux_perm draws i (swapNodes l (i + 1) (draws (i + 1)))).trans
      (swapNodes_perm l (i + 1) (draws (i + 1)))

/-- C8: `shuffleArray` always returns a permutation of its input (same
elements, none lost or duplicated), for every list and every sequence of
random index draws; consequently the three gesture stages `getChallengeHTML`
embeds into the challenge page have pairwise distinct poses — they are drawn
without replacement from the gesture set. -/
theorem shuffleArray_perm_and_stages_distinct :
    (∀ (α : Type) (l : List α) (draws : Nat → Nat),
        (shuffleArray l draws).Perm l) ∧
    (∀ draws : Nat → Nat,
        ((challengeStages draws).map ChallengeEntry.pose).Nodup) := by
  constructor
  · intro α l draws
    exact fisherYatesAux_perm draws (l.length - 1) l
  · intro draws
    have hperm : ((shuffleArray ALL_CHALLENGES draws).map
        ChallengeEntry.pose).Perm (ALL_CHALLENGES.map ChallengeEntry.pose) :=
      (fisherYatesAux_perm draws (ALL_CHALLENGES.length - 1)
        ALL_CHALLENGES).map ChallengeEntry.pose
    have hnd : ((shuffleArray ALL_CHALLENGES draws).map
        ChallengeEntry.pose).Nodup :=
      hperm.nodup_iff.mpr (by decide)
    have : (challengeStages draws).map ChallengeEntry.pose =
        ((shuffleArray ALL_CHALLENGES draws).map ChallengeEntry.pose).take 3 := by
      simp [challengeStages, List.map_take]
    rw [this]
    exact hnd.sublist (List.take_sublist _ _)

/-! ### handleFileOpen guards (claim C10) -/

/-- C10: `handleFileOpen` leaves the document untouched and opens no
challenge whenever the content is already encrypted, is blank after
trimming, or exceeds 1,000,000 characters; in particular an already-locked
file (the output of `encryptContent`) is never encrypted a second time. -/
theorem handleFileOpen_skips_locked_blank_large :
    (∀ (sf sp : Bool) (content : List Nat),
        (isEncrypted content = true ∨ (trimUnits content).length = 0 ∨
          1000000 < content.length) →
        handleFileOpen sf sp content = ⟨none, false⟩) ∧
    (∀ (sf sp : Bool) (c : List Nat),
        handleFileOpen sf sp (encryptContent c) = ⟨none, false⟩) := by
  have main : ∀ (sf sp : Bool) (content : List Nat),
      (isEncrypted content = true ∨ (trimUnits content).length = 0 ∨
        1000000 < content.length) →
      handleFileOpen sf sp content = ⟨none, false⟩ := by
    intro sf sp content h
    unfold handleFileOpen
    split_ifs with h1 h2 h3 h4 h5
    · rfl
    · rfl
    · rfl
    · rfl
    · rfl
    · rcases h with h | h | h
      · exact absurd h h3
      · exact absurd h h4
      · exact absurd h h5
  refine ⟨main, fun sf sp c => main sf sp _ (Or.inl ?_)⟩
  unfold isEncrypted encryptContent
  exact startsWithUnits_append _ _

/-- C10, witness: the guard theorem applied to an already-encrypted concrete
content (the bare marker). -/
theorem handleFileOpen_skips_witness :
    isEncrypted MARKER = true ∧
      handleFileOpen true false MARKER = ⟨none, false⟩ :=
  ⟨by decide,
    handleFileOpen_skips_locked_blank_large.1 true false MARKER
      (Or.inl (by decide))⟩

end VSHater

namespace VSHater

/-! ### Motion-history window bound (claim C3) -/

theorem pushCap_eq_append (h : List ℚ) (x : ℚ) (hle : h.length + 1 ≤ 30) :
    pushCap h x = h ++ [x] := by
  unfold pushCap
  rw [if_neg (by simp; omega)]

theorem pushCap_eq_tail (hd : ℚ) (tl : List ℚ) (x : ℚ)
    (hlen : (hd :: tl).length = 30) :
    pushCap (hd :: tl) x = tl ++ [x] := by
  unfold pushCap
  rw [if_pos (by simp at hlen ⊢; omega)]
  simp

theorem pushCap_length_le {h : List ℚ} (x : ℚ) (hle : h.length ≤ 30) :
    (pushCap h x).length ≤ 30 := by
  by_cases hc : h.length + 1 ≤ 30
  · rw [pushCap_eq_append h x hc]
    simp
    omega
  · have h30 : h.length = 30 := by omega
    rcases h with _ | ⟨hd, tl⟩
    · simp at h30
    · rw [pushCap_eq_tail hd tl x h30]
      simp at h30 ⊢
      omega

theorem pushCap_foldl :
    ∀ (xs h : List ℚ), h.length ≤ 30 →
      xs.foldl pushCap h = (h ++ xs).drop (h.length + xs.length - 30) := by
  intro xs
  induction xs with
  | nil =>
    intro h hle
    simp only [List.foldl_nil, List.append_nil, List.length_nil, Nat.add_zero]
    rw [Nat.sub_eq_zero_of_le hle, List.drop_zero]
  | cons x xs ih =>
    intro h hle
    rw [List.foldl_cons]
    by_cases hc : h.length + 1 ≤ 30
    · rw [pushCap_eq_append h x hc, ih (h ++ [x]) (by simp; omega)]
      have h1 : (h ++ [x]).length + xs.length - 30 =
          h.length + (x :: xs).length - 30 := by simp; omega
      rw [h1, List.append_assoc]
      simp
    · have h30 : h.length = 30 := by omega
      rcases h with _ | ⟨hd, tl⟩
      · simp at h30
      · rw [pushCap_eq_tail hd tl x h30, ih (tl ++ [x]) (by simp at h30 ⊢; omega)]
        have h1 : (tl ++ [x]).length + xs.length - 30 = xs.length := by
          simp at h30 ⊢; omega
        have h2 : (hd :: tl).length + (x :: xs).length - 30 = xs.length + 1 := by
          simp at h30 ⊢; omega
        rw [h1, h2, List.append_assoc]
        simp

/-- C3: the motion-history buffers (left wrist Y, right wrist Y, head X, all
maintained through `pushCap`) never exceed 30 samples; after at least 30
pushes the window is exactly the 30 most recent values in arrival order
(the `drop` suffix); and the two oscillation classifiers preserve the
bound on every call. -/
theorem motion_history_window_bound :
    (∀ xs : List ℚ, (xs.foldl pushCap []).length ≤ 30) ∧
    (∀ xs : List ℚ, 30 ≤ xs.length →
      xs.foldl pushCap [] = xs.drop (xs.length - 30) ∧
      (xs.foldl pushCap []).length = 30) ∧
    (∀ (lw rw : Option Pt) (lh rh : List ℚ), lh.length ≤ 30 → rh.length ≤ 30 →
      (check67Hands lw rw lh rh).2.1.length ≤ 30 ∧
      (check67Hands lw rw lh rh).2.2.length ≤ 30) ∧
    (∀ (face : Option FaceMap) (hx : List ℚ), hx.length ≤ 30 →
      (checkFanumTax face hx).2.length ≤ 30) := by
  have hfold : ∀ xs : List ℚ,
      xs.foldl pushCap [] = xs.drop (xs.length - 30) := by
    intro xs
    have := pushCap_foldl xs [] (by simp)
    simpa using this
  refine ⟨?_, ?_, ?_, ?_⟩
  · intro xs
    rw [hfold]
    simp only [List.length_drop]
    omega
  · intro xs hge
    refine ⟨hfold xs, ?_⟩
    rw [hfold]
    simp only [List.length_drop]
    omega
  · intro lw rw lh rh hl hr
    rcases lw with _ | lwp <;> rcases rw with _ | rwp <;>
      simp only [check67Hands] <;>
      refine ⟨?_, ?_⟩ <;>
      first
        | exact hl
        | exact hr
        | exact pushCap_length_le _ hl
        | exact pushCap_length_le _ hr
  · intro face hx hle
    rcases face with _ | fm
    · simpa [checkFanumTax] using hle
    · rcases h13 : fm 13 with _ | p13 <;>
      rcases h14 : fm 14 with _ | p14 <;>
      rcases h78 : fm 78 with _ | p78 <;>
      rcases h308 : fm 308 with _ | p308 <;>
      rcases h1 : fm 1 with _ | p1 <;>
        simp [checkFanumTax, h13, h14, h78, h308, h1] <;>
        first
          | exact hle
          | exact pushCap_length_le p1.x hle

end VSHater

namespace VSHater

/-- C3, witness: the bound theorem applied to a concrete 31-push sequence:
the buffer holds exactly the most recent 30 values. -/
theorem motion_history_window_bound_witness :
    30 ≤ (List.replicate 31 (0 : ℚ)).length ∧
      (List.replicate 31 (0 : ℚ)).foldl pushCap [] =
        (List.replicate 31 (0 : ℚ)).drop ((List.replicate 31 (0 : ℚ)).length - 30) ∧
      ((List.replicate 31 (0 : ℚ)).foldl pushCap []).length = 30 :=
  ⟨by decide, (motion_history_window_bound.2.1 _ (by decide)).1,
    (motion_history_window_bound.2.1 _ (by decide)).2⟩

/-! ### Oscillating-hands classifier on synthetic windows (claim C4) -/

theorem countChangesAux_monotone (fl : ℚ) (hfl : 0 ≤ fl) :
    ∀ (xs : List ℚ) (prev : ℚ) (d : Int),
      List.Chain' (· ≤ ·) (prev :: xs) → (d = 0 ∨ d = 1) →
      countChangesAux fl prev d xs = 0
  | [], _, _, _, _ => rfl
  | v :: rest, prev, d, hch, hd => by
    rw [List.chain'_cons] at hch
    obtain ⟨hpv, hch'⟩ := hch
    show (if fl < qabs (v - prev) then
        (if d ≠ 0 ∧ (if 0 < v - prev then (1 : Int) else -1) ≠ d then 1 else 0) +
          countChangesAux fl v (if 0 < v - prev then 1 else -1) rest
      else countChangesAux fl v d rest) = 0
    have habs : qabs (v - prev) = v - prev := by
      unfold qabs
      rw [if_neg (by linarith)]
    by_cases hq : fl < qabs (v - prev)
    · have hpos : 0 < v - prev := by
        rw [habs] at hq
        linarith
      rw [if_pos hq, if_pos hpos]
      have hrec : countChangesAux fl v 1 rest = 0 :=
        countChangesAux_monotone fl hfl rest v 1 hch' (Or.inr rfl)
      rcases hd with rfl | rfl
      · simp [hrec]
      · simp [hrec]
    · rw [if_neg hq]
      exact countChangesAux_monotone fl hfl rest v d hch' hd

theorem countChanges_monotone (fl : ℚ) (hfl : 0 ≤ fl) (xs : List ℚ)
    (h : List.Chain' (· ≤ ·) xs) : countChanges fl xs = 0 := by
  cases xs with
  | nil => rfl
  | cons v rest =>
    exact countChangesAux_monotone fl hfl rest v 0 h (Or.inl rfl)

/-- C4: the oscillating-hands verdict is `true` on the synthetic 20-sample
windows alternating between 0.0 and 0.12 on both wrists; it is `false` on
monotonically increasing 20-sample windows regardless of amplitude (0
direction changes); and below 15 samples (the windows always have equal
length, being pushed in lockstep) it declares no verdict. -/
theorem oscillation_window_verdicts :
    verdict67 alt20 alt20 = true ∧
    (∀ lh rh : List ℚ, List.Chain' (· ≤ ·) lh → List.Chain' (· ≤ ·) rh →
      lh.length = 20 → rh.length = 20 → verdict67 lh rh = false) ∧
    (∀ lh rh : List ℚ, lh.length = rh.length → lh.length < 15 →
      verdict67 lh rh = false) := by
  refine ⟨?_, ?_, ?_⟩
  · norm_num [verdict67, alt20, getRange, listMax, listMin, qmax, qmin,
      countChanges, countChangesAux, qabs]
  · intro lh rh hm _ hl _
    have h0 : countChanges 0.015 lh = 0 :=
      countChanges_monotone _ (by norm_num) lh hm
    unfold verdict67
    rw [if_neg (by omega)]
    by_cases hr : getRange lh < 0.08 ∨ getRange rh < 0.08
    · rw [if_pos hr]
    · rw [if_neg hr]
      simp [h0]
  · intro lh rh _ hlt
    unfold verdict67
    rw [if_pos hlt]

/-- C4, witness: the verdict theorem applied to the concrete monotone
window `inc20` (amplitude 19) and to a concrete 1-sample window. -/
theorem oscillation_window_verdicts_witness :
    verdict67 inc20 inc20 = false ∧ verdict67 [0] [0] = false :=
  ⟨oscillation_window_verdicts.2.1 inc20 inc20
      (by norm_num [inc20, List.chain'_cons])
      (by norm_num [inc20, List.chain'_cons]) (by rfl) (by rfl),
    oscillation_window_verdicts.2.2 [0] [0] rfl (by norm_num)⟩

end VSHater

namespace VSHater

/-! ### Classifier behaviour on missing input (claim C5) -/

/-- C5, counterexample: the claim fails for the smile-and-point-up
classifier.  When the face-landmark array is present but the three smile
landmarks (FaceMesh 61, 291, 13) are absent, `checkMonkeyHappy` defaults
the smile sub-condition to satisfied, so with a visible index finger above
the wrist it returns a match instead of no-match. -/
theorem monkeyHappy_matches_with_absent_landmarks :
    faceNoMouth 61 = none ∧ faceNoMouth 291 = none ∧ faceNoMouth 13 = none ∧
    checkMonkeyHappy lmFingerUp (some faceNoMouth) = true := by
  refine ⟨rfl, rfl, rfl, ?_⟩
  norm_num [checkMonkeyHappy, isFingerUp, faceNoMouth, lmFingerUp]

theorem fingerNearMouth_lowvis (lm : PoseMap) (nose : Pt) {f : Pt}
    (h : f.visibility ≤ 0.3) : fingerNearMouth lm nose (some f) = false := by
  simp only [fingerNearMouth]
  rw [if_neg (by linarith)]

theorem isFingerUp_lowvis {f : Pt} (w : Option Pt) (h : f.visibility < 0.2) :
    isFingerUp (some f) w = false := by
  rcases w with _ | wp
  · rfl
  · simp only [isFingerUp]
    rw [if_pos h]

theorem checkKhaby_requires {lm : PoseMap} (h : checkKhaby lm = true) :
    (lm 11).isSome ∧ (lm 12).isSome ∧ (lm 13).isSome ∧ (lm 14).isSome ∧
    (lm 15).isSome ∧ (lm 16).isSome ∧ (lm 23).isSome ∧ (lm 24).isSome := by
  unfold checkKhaby at h
  split at h
  · simp_all
  · simp at h

theorem checkKhaby_requires_vis {lm : PoseMap} (h : checkKhaby lm = true)
    (p : Pt)
    (hp : lm 15 = some p ∨ lm 16 = some p ∨ lm 13 = some p ∨ lm 14 = some p) :
    ¬(p.visibility < 0.5) := by
  unfold checkKhaby at h
  split at h
  · split at h
    · simp at h
    · rcases hp with hp | hp | hp | hp <;> simp_all
  · simp at h

theorem checkDab_requires {lm : PoseMap} (h : CheckDab lm) :
    (lm 0).isSome ∧ (lm 11).isSome ∧ (lm 12).isSome ∧ (lm 13).isSome ∧
    (lm 14).isSome ∧ (lm 15).isSome ∧ (lm 16).isSome := by
  unfold CheckDab at h
  split at h
  · simp_all
  · exact h.elim

end VSHater

namespace VSHater

/-- C5, amended: the classifiers treat missing or low-visibility input as
no-match, with one exception forced by the counterexample.  In detail: the
oscillating-hands classifier rejects a frame missing either wrist; the
tongue-and-headshake classifier rejects absent face data and absent mouth
or nose landmarks; finger-to-lip rejects an absent nose, absent fingers,
and fingers at visibility ≤ 0.3; palms-up-shrug rejects any missing one of
its eight landmarks and wrist/elbow visibility below 0.5; finger-to-jaw
rejects absent face data, an absent nose tip or chin, and absent fingers;
the dab classifier rejects any missing one of its seven landmarks.  For
smile-and-point-up, absent face data, absent fingers, or fingers below
visibility 0.2 force no-match, but absent mouth landmarks alone do NOT:
the smile sub-condition then defaults to satisfied. -/
theorem classifiers_reject_missing_input :
    (∀ (rw : Option Pt) (lh rh : List ℚ),
      (check67Hands none rw lh rh).1 = false) ∧
    (∀ (lw : Option Pt) (lh rh : List ℚ),
      (check67Hands lw none lh rh).1 = false) ∧
    (∀ hx : List ℚ, (checkFanumTax none hx).1 = false) ∧
    (∀ (fm : FaceMap) (hx : List ℚ),
      fm 13 = none ∨ fm 14 = none ∨ fm 78 = none ∨ fm 308 = none ∨
        fm 1 = none →
      (checkFanumTax (some fm) hx).1 = false) ∧
    (∀ lm : PoseMap, lm 0 = none → checkMonkeyThink lm = false) ∧
    (∀ lm : PoseMap, lm 19 = none → lm 20 = none →
      checkMonkeyThink lm = false) ∧
    (∀ (lm : PoseMap) (f g : Pt), lm 19 = some f → f.visibility ≤ 0.3 →
      lm 20 = some g → g.visibility ≤ 0.3 → checkMonkeyThink lm = false) ∧
    (∀ lm : PoseMap,
      lm 11 = none ∨ lm 12 = none ∨ lm 13 = none ∨ lm 14 = none ∨
        lm 15 = none ∨ lm 16 = none ∨ lm 23 = none ∨ lm 24 = none →
      checkKhaby lm = false) ∧
    (∀ (lm : PoseMap) (p : Pt),
      (lm 15 = some p ∨ lm 16 = some p ∨ lm 13 = some p ∨ lm 14 = some p) →
      p.visibility < 0.5 → checkKhaby lm = false) ∧
    (∀ lm : PoseMap, checkMewing lm none = false) ∧
    (∀ (lm : PoseMap) (fm : FaceMap), fm 1 = none ∨ fm 152 = none →
      checkMewing lm (some fm) = false) ∧
    (∀ (lm : PoseMap) (fm : FaceMap), lm 19 = none → lm 20 = none →
      checkMewing lm (some fm) = false) ∧
    (∀ lm : PoseMap, checkMonkeyHappy lm none = false) ∧
    (∀ (lm : PoseMap) (face : Option FaceMap), lm 19 = none → lm 20 = none →
      checkMonkeyHappy lm face = false) ∧
    (∀ (lm : PoseMap) (face : Option FaceMap) (f g : Pt), lm 19 = some f →
      f.visibility < 0.2 → lm 20 = some g → g.visibility < 0.2 →
      checkMonkeyHappy lm face = false) ∧
    (∀ lm : PoseMap,
      lm 0 = none ∨ lm 11 = none ∨ lm 12 = none ∨ lm 13 = none ∨
        lm 14 = none ∨ lm 15 = none ∨ lm 16 = none → ¬ CheckDab lm) := by
  refine ⟨?_, ?_, ?_, ?_, ?_, ?_, ?_, ?_, ?_, ?_, ?_, ?_, ?_, ?_, ?_, ?_⟩
  · intro rw lh rh
    rcases rw with _ | p <;> simp [check67Hands]
  · intro lw lh rh
    rcases lw with _ | p <;> simp [check67Hands]
  · intro hx
    simp [checkFanumTax]
  · intro fm hx h
    rcases h13 : fm 13 with _ | p13 <;>
    rcases h14 : fm 14 with _ | p14 <;>
    rcases h78 : fm 78 with _ | p78 <;>
    rcases h308 : fm 308 with _ | p308 <;>
    rcases h1 : fm 1 with _ | p1 <;>
      simp_all [checkFanumTax]
  · intro lm h
    simp [checkMonkeyThink, h]
  · intro lm h19 h20
    rcases h0 : lm 0 with _ | nose <;>
      simp [checkMonkeyThink, h0, h19, h20, fingerNearMouth]
  · intro lm f g h19 hf h20 hg
    rcases h0 : lm 0 with _ | nose
    · simp [checkMonkeyThink, h0]
    · simp [checkMonkeyThink, h0, h19, h20,
        fingerNearMouth_lowvis lm nose hf, fingerNearMouth_lowvis lm nose hg]
  · intro lm h
    cases hk : checkKhaby lm
    · rfl
    · exfalso
      obtain ⟨s11, s12, s13, s14, s15, s16, s23, s24⟩ := checkKhaby_requires hk
      rcases h with h | h | h | h | h | h | h | h <;> simp_all
  · intro lm p hp hv
    cases hk : checkKhaby lm
    · rfl
    · exact absurd hv (checkKhaby_requires_vis hk p hp)
  · intro lm
    simp [checkMewing]
  · intro lm fm h
    rcases h1 : fm 1 with _ | p1 <;>
    rcases h152 : fm 152 with _ | p152 <;>
      simp_all [checkMewing]
  · intro lm fm h19 h20
    rcases h1 : fm 1 with _ | p1 <;>
    rcases h152 : fm 152 with _ | p152 <;>
      simp [checkMewing, h1, h152, h19, h20, fingerOnJawline]
  · intro lm
    simp [checkMonkeyHappy]
  · intro lm face h19 h20
    rcases face with _ | fm <;>
      simp [checkMonkeyHappy, h19, h20, isFingerUp]
  · intro lm face f g h19 hf h20 hg
    rcases face with _ | fm <;>
      simp [checkMonkeyHappy, h19, h20, isFingerUp_lowvis _ hf,
        isFingerUp_lowvis _ hg]
  · intro lm h hd
    obtain ⟨s0, s11, s12, s13, s14, s15, s16⟩ := checkDab_requires hd
    rcases h with h | h | h | h | h | h | h <;> simp_all

/-- C5, witness: the amended theorem applied to concrete frames with every
landmark absent, and to a concrete face with no landmark entries. -/
theorem classifiers_reject_missing_input_witness :
    checkKhaby emptyPose = false ∧ checkMonkeyThink emptyPose = false ∧
    (checkFanumTax none []).1 = false ∧ checkMewing emptyPose none = false ∧
    checkMonkeyHappy emptyPose none = false ∧ ¬ CheckDab emptyPose := by
  obtain ⟨h1, h2, h3, h4, h5, h6, h7, h8, h9, h10, h11, h12, h13, h14, h15,
    h16⟩ := classifiers_reject_missing_input
  exact ⟨h8 emptyPose (Or.inl rfl), h5 emptyPose rfl, h3 [],
    h10 emptyPose, h13 emptyPose, h16 emptyPose (Or.inl rfl)⟩

end VSHater

namespace VSHater

/-! ### Sequencer lemmas (claims C1 and C2) -/

theorem run_append (p q : List Ev) : run (p ++ q) = q.foldl step (run p) := by
  simp [run, List.foldl_append]

theorem run_concat (p : List Ev) (e : Ev) : run (p ++ [e]) = step (run p) e := by
  simp [run, List.foldl_append]

theorem foldl_stepX_s : ∀ (p : List Ev) (x : XState),
    (p.foldl stepX x).s = p.foldl step x.s
  | [], _ => rfl
  | e :: es, x => foldl_stepX_s es (stepX x e)

theorem runX_s (p : List Ev) : (runX p).s = run p := foldl_stepX_s p _

theorem seqInv_mk {idx cnt : Nat} {trans act comp : Bool} {m t : Nat}
    (h1 : trans = true → m = t + 1 ∧ cnt = 5)
    (h2 : trans = false → m = t)
    (h3 : idx = min t 2)
    (h4 : comp = true ↔ 3 ≤ t)
    (h5 : act = true ↔ t < 3)
    (h6 : t ≤ 3)
    (h7 : trans = false → cnt ≤ 4)
    (h8 : act = false → cnt = 0) :
    SeqInv ⟨⟨idx, cnt, trans, act, comp⟩, m, t⟩ :=
  ⟨h1, h2, h3, h4, h5, h6, h7, h8⟩

theorem seqInv_elim {idx cnt : Nat} {trans act comp : Bool} {m t : Nat}
    (h : SeqInv ⟨⟨idx, cnt, trans, act, comp⟩, m, t⟩) :
    (trans = true → m = t + 1 ∧ cnt = 5) ∧ (trans = false → m = t) ∧
    idx = min t 2 ∧ (comp = true ↔ 3 ≤ t) ∧ (act = true ↔ t < 3) ∧
    t ≤ 3 ∧ (trans = false → cnt ≤ 4) ∧ (act = false → cnt = 0) := h

theorem seqInv_step (x : XState) (e : Ev) (h : SeqInv x) : SeqInv (stepX x e) := by
  obtain ⟨⟨idx, cnt, trans, act, comp⟩, m, t⟩ := x
  obtain ⟨h1, h2, h3, h4, h5, h6, h7, h8⟩ := seqInv_elim h
  cases e with
  | frame v =>
    cases act with
    | false =>
      have hx : stepX ⟨⟨idx, cnt, trans, false, comp⟩, m, t⟩ (Ev.frame v) =
          ⟨⟨idx, cnt, trans, false, comp⟩, m, t⟩ := by
        simp [stepX, step, stepFrame]
      rw [hx]
      exact seqInv_mk h1 h2 h3 h4 h5 h6 h7 h8
    | true =>
      cases trans with
      | true =>
        have hx : stepX ⟨⟨idx, cnt, true, true, comp⟩, m, t⟩ (Ev.frame v) =
            ⟨⟨idx, cnt, true, true, comp⟩, m, t⟩ := by
          simp [stepX, step, stepFrame]
        rw [hx]
        exact seqInv_mk h1 h2 h3 h4 h5 h6 h7 h8
      | false =>
        have hmt : m = t := h2 rfl
        have hc4 : cnt ≤ 4 := h7 rfl
        rcases v with _ | (_ | _)
        · have hx : stepX ⟨⟨idx, cnt, false, true, comp⟩, m, t⟩
              (Ev.frame none) = ⟨⟨idx, 0, false, true, comp⟩, m, t⟩ := by
            simp [stepX, step, stepFrame]
          rw [hx]
          exact seqInv_mk (by simp) (fun _ => hmt) h3 h4 h5 h6 (by omega)
            (by simp)
        · have hx : stepX ⟨⟨idx, cnt, false, true, comp⟩, m, t⟩
              (Ev.frame (some false)) = ⟨⟨idx, 0, false, true, comp⟩, m, t⟩ := by
            simp [stepX, step, stepFrame]
          rw [hx]
          exact seqInv_mk (by simp) (fun _ => hmt) h3 h4 h5 h6 (by omega)
            (by simp)
        · by_cases hth : 5 ≤ cnt + 1
          · have hx : stepX ⟨⟨idx, cnt, false, true, comp⟩, m, t⟩
                (Ev.frame (some true)) =
                ⟨⟨idx, cnt + 1, true, true, comp⟩, m + 1, t⟩ := by
              simp [stepX, step, stepFrame, hth]
            rw [hx]
            exact seqInv_mk (fun _ => ⟨by omega, by omega⟩) (by simp) h3 h4 h5
              h6 (by simp) (by simp)
          · have hx : stepX ⟨⟨idx, cnt, false, true, comp⟩, m, t⟩
                (Ev.frame (some true)) =
                ⟨⟨idx, cnt + 1, false, true, comp⟩, m, t⟩ := by
              simp [stepX, step, stepFrame, hth]
            rw [hx]
            exact seqInv_mk (by simp) (fun _ => hmt) h3 h4 h5 h6
              (fun _ => by omega) (by simp)
  | timer =>
    cases trans with
    | false =>
      have hx : stepX ⟨⟨idx, cnt, false, act, comp⟩, m, t⟩ Ev.timer =
          ⟨⟨idx, cnt, false, act, comp⟩, m, t⟩ := by
        simp [stepX, step, stepTimer]
      rw [hx]
      exact seqInv_mk h1 h2 h3 h4 h5 h6 h7 h8
    | true =>
      obtain ⟨hmt, hcnt⟩ := h1 rfl
      have hact : act = true := by
        cases act with
        | false =>
          have := h8 rfl
          omega
        | true => rfl
      subst hact
      have ht3 : t < 3 := h5.mp rfl
      by_cases hidx : idx < 2
      · have ht2 : t < 2 := by omega
        have hx : stepX ⟨⟨idx, cnt, true, true, comp⟩, m, t⟩ Ev.timer =
            ⟨⟨idx + 1, 0, false, true, comp⟩, m, t + 1⟩ := by
          simp [stepX, step, stepTimer, advanceToNextImage, hidx]
        rw [hx]
        refine seqInv_mk (by simp) (fun _ => by omega) (by omega)
          ⟨fun hcp => absurd (h4.mp hcp) (by omega),
            fun hcp => absurd hcp (by omega)⟩
          ⟨fun _ => by omega, fun _ => rfl⟩ (by omega) (fun _ => by omega)
          (by simp)
      · have hidx2 : idx = 2 := by omega
        have ht2 : t = 2 := by omega
        have hx : stepX ⟨⟨idx, cnt, true, true, comp⟩, m, t⟩ Ev.timer =
            ⟨⟨2, 0, false, false, true⟩, m, t + 1⟩ := by
          simp [stepX, step, stepTimer, advanceToNextImage, completeChallenge,
            hidx, hidx2]
        rw [hx]
        refine seqInv_mk (by simp) (fun _ => by omega) (by omega)
          ⟨fun _ => by omega, fun _ => rfl⟩
          ⟨fun hcp => absurd hcp (by simp), fun hcp => absurd hcp (by omega)⟩
          (by omega) (fun _ => by omega) (fun _ => rfl)

theorem seqInv_foldl : ∀ (p : List Ev) (x : XState), SeqInv x →
    SeqInv (p.foldl stepX x)
  | [], _, h => h
  | e :: es, x, h => seqInv_foldl es (stepX x e) (seqInv_step x e h)

theorem seqInv_runX (p : List Ev) : SeqInv (runX p) := by
  refine seqInv_foldl p ⟨initSeq, 0, 0⟩ ?_
  exact seqInv_mk (by simp) (fun _ => rfl) (by simp) (by simp) (by simp)
    (by omega) (fun _ => by omega) (by simp)

end VSHater

namespace VSHater

theorem stepFrame_skip_inactive {s : SeqState} (h : s.active = false)
    (v : Option Bool) : stepFrame s v = s := by
  unfold stepFrame
  rw [if_pos h]

theorem stepFrame_skip_trans {s : SeqState} (h : s.transitioning = true)
    (v : Option Bool) : stepFrame s v = s := by
  unfold stepFrame
  by_cases ha : s.active = false
  · rw [if_pos ha]
  · rw [if_neg ha, if_pos h]

theorem stepFrame_reset {s : SeqState} (ha : s.active = true)
    (ht : s.transitioning = false) (v : Option Bool)
    (hv : v = none ∨ v = some false) :
    stepFrame s v = { s with counter := 0 } := by
  unfold stepFrame
  rw [if_neg (by simp [ha]), if_neg (by simp [ht])]
  rcases hv with rfl | rfl <;> rfl

theorem stepFrame_match_hit {s : SeqState} (ha : s.active = true)
    (ht : s.transitioning = false) (h5 : 5 ≤ s.counter + 1) :
    stepFrame s (some true) =
      { s with counter := s.counter + 1, transitioning := true } := by
  unfold stepFrame
  rw [if_neg (by simp [ha]), if_neg (by simp [ht])]
  exact if_pos h5

theorem stepFrame_match_miss {s : SeqState} (ha : s.active = true)
    (ht : s.transitioning = false) (h5 : ¬5 ≤ s.counter + 1) :
    stepFrame s (some true) = { s with counter := s.counter + 1 } := by
  unfold stepFrame
  rw [if_neg (by simp [ha]), if_neg (by simp [ht])]
  exact if_neg h5

theorem stepTimer_skip {s : SeqState} (h : s.transitioning = false) :
    stepTimer s = s := by
  unfold stepTimer
  rw [if_neg (by simp [h])]

theorem stepTimer_fire {s : SeqState} (h : s.transitioning = true) :
    stepTimer s =
      { advanceToNextImage s with counter := 0, transitioning := false } := by
  unfold stepTimer
  rw [if_pos h]

/-- All invariant facts, phrased on `run p` / `numMatched p`. -/
theorem seqInv_run_facts (p : List Ev) :
    ((run p).transitioning = true →
      numMatched p = (runX p).t + 1 ∧ (run p).counter = 5) ∧
    ((run p).transitioning = false → numMatched p = (runX p).t) ∧
    (run p).imageIndex = min ((runX p).t) 2 ∧
    ((run p).complete = true ↔ 3 ≤ (runX p).t) ∧
    ((run p).active = true ↔ (runX p).t < 3) ∧
    (runX p).t ≤ 3 ∧
    ((run p).transitioning = false → (run p).counter ≤ 4) ∧
    ((run p).active = false → (run p).counter = 0) := by
  have h := seqInv_runX p
  unfold SeqInv at h
  rw [runX_s p] at h
  exact h

theorem matchedAt_iff (p : List Ev) (e : Ev) :
    matchedAt p e ↔ ((run p).active = true ∧ (run p).transitioning = false ∧
      e = Ev.frame (some true) ∧ (run p).counter = 4) := by
  obtain ⟨_, _, _, _, _, _, hc4, _⟩ := seqInv_run_facts p
  unfold matchedAt
  rw [run_concat]
  constructor
  · rintro ⟨htr, htr'⟩
    cases e with
    | timer =>
      rw [show step (run p) Ev.timer = stepTimer (run p) from rfl,
        stepTimer_skip htr, htr] at htr'
      exact absurd htr' (by simp)
    | frame v =>
      cases hA : (run p).active with
      | false =>
        rw [show step (run p) (Ev.frame v) = stepFrame (run p) v from rfl,
          stepFrame_skip_inactive hA, htr] at htr'
        exact absurd htr' (by simp)
      | true =>
        rcases v with _ | (_ | _)
        · rw [show step (run p) (Ev.frame none) = stepFrame (run p) none from
            rfl, stepFrame_reset hA htr _ (Or.inl rfl)] at htr'
          simp [htr] at htr'
        · rw [show step (run p) (Ev.frame (some false)) =
            stepFrame (run p) (some false) from rfl,
            stepFrame_reset hA htr _ (Or.inr rfl)] at htr'
          simp [htr] at htr'
        · by_cases h5 : 5 ≤ (run p).counter + 1
          · have := hc4 htr
            exact ⟨rfl, htr, rfl, by omega⟩
          · rw [show step (run p) (Ev.frame (some true)) =
              stepFrame (run p) (some true) from rfl,
              stepFrame_match_miss hA htr h5] at htr'
            simp [htr] at htr'
  · rintro ⟨hA, htr, rfl, hcnt⟩
    refine ⟨htr, ?_⟩
    rw [show step (run p) (Ev.frame (some true)) =
      stepFrame (run p) (some true) from rfl,
      stepFrame_match_hit hA htr (by omega)]

theorem complete_numMatched (p : List Ev) (h : (run p).complete = true) :
    numMatched p = 3 := by
  obtain ⟨h1, h2, _, h4, h5, h6, _, h8⟩ := seqInv_run_facts p
  have ht : (runX p).t = 3 := by
    have := h4.mp h
    omega
  cases htr : (run p).transitioning with
  | false => rw [h2 htr, ht]
  | true =>
    exfalso
    obtain ⟨_, hcnt⟩ := h1 htr
    have hact : (run p).active = false := by
      cases hA : (run p).active with
      | false => rfl
      | true => exact absurd (h5.mp hA) (by omega)
    have := h8 hact
    omega

theorem imageIndex_le_numMatched (p : List Ev) :
    (run p).imageIndex ≤ numMatched p := by
  obtain ⟨h1, h2, h3, _, _, _, _, _⟩ := seqInv_run_facts p
  cases htr : (run p).transitioning with
  | false =>
    rw [h3, h2 htr]
    omega
  | true =>
    obtain ⟨hm, _⟩ := h1 htr
    rw [h3, hm]
    omega

theorem matchedAt_imageIndex (p : List Ev) (e : Ev) (h : matchedAt p e) :
    (run p).imageIndex = numMatched p := by
  rw [matchedAt_iff] at h
  obtain ⟨hA, htr, _, _⟩ := h
  obtain ⟨_, h2, h3, _, h5, _, _, _⟩ := seqInv_run_facts p
  have ht3 := h5.mp hA
  rw [h3, h2 htr]
  omega

end VSHater

namespace VSHater

theorem validFrom_append : ∀ (p q : List Ev) (s : SeqState),
    validFrom s (p ++ q) = (validFrom s p && validFrom (p.foldl step s) q)
  | [], q, s => by simp [validFrom]
  | e :: es, q, s => by
    simp only [List.cons_append, validFrom, List.foldl_cons, List.append_eq,
      validFrom_append es q (step s e), Bool.and_assoc]

theorem trailingTrue_concat (p : List Ev) (e : Ev) :
    trailingTrue (p ++ [e]) =
      if e = Ev.frame (some true) then trailingTrue p + 1 else 0 := by
  unfold trailingTrue
  rw [List.reverse_append]
  rcases e with v | _
  · rcases v with _ | (_ | _) <;> simp [leadingTrue]
  · simp [leadingTrue]

theorem counter_le_trailing (p : List Ev) (hv : validFrom initSeq p = true)
    (htr : (run p).transitioning = false) :
    (run p).counter ≤ trailingTrue p := by
  induction p using List.reverseRecOn with
  | nil => simp [run, initSeq]
  | append_singleton p e ih =>
    rw [validFrom_append] at hv
    simp only [Bool.and_eq_true] at hv
    obtain ⟨hvp, hve⟩ := hv
    rw [run_concat] at htr ⊢
    rw [trailingTrue_concat]
    obtain ⟨_, _, _, _, _, _, _, h8⟩ := seqInv_run_facts p
    cases e with
    | timer =>
      have htrp : (run p).transitioning = true := by
        simpa [validFrom] using hve
      rw [show step (run p) Ev.timer = stepTimer (run p) from rfl,
        stepTimer_fire htrp]
      simp
    | frame v =>
      cases hA : (run p).active with
      | false =>
        rw [show step (run p) (Ev.frame v) = stepFrame (run p) v from rfl,
          stepFrame_skip_inactive hA]
        have := h8 hA
        omega
      | true =>
        cases htrp : (run p).transitioning with
        | true =>
          rw [show step (run p) (Ev.frame v) = stepFrame (run p) v from rfl,
            stepFrame_skip_trans htrp] at htr
          rw [htrp] at htr
          exact absurd htr (by simp)
        | false =>
          rcases v with _ | (_ | _)
          · rw [show step (run p) (Ev.frame none) = stepFrame (run p) none
              from rfl, stepFrame_reset hA htrp _ (Or.inl rfl)]
            simp
          · rw [show step (run p) (Ev.frame (some false)) =
              stepFrame (run p) (some false) from rfl,
              stepFrame_reset hA htrp _ (Or.inr rfl)]
            simp
          · by_cases h5 : 5 ≤ (run p).counter + 1
            · rw [show step (run p) (Ev.frame (some true)) =
                stepFrame (run p) (some true) from rfl,
                stepFrame_match_hit hA htrp h5] at htr
              simp at htr
            · rw [show step (run p) (Ev.frame (some true)) =
                stepFrame (run p) (some true) from rfl,
                stepFrame_match_miss hA htrp h5]
              have := ih hvp htrp
              simp only [if_pos rfl]
              show (run p).counter + 1 ≤ trailingTrue p + 1
              omega

theorem trailing_suffix (p : List Ev) :
    ∀ k : Nat, k ≤ trailingTrue p →
      (List.replicate k (Ev.frame (some true))).IsSuffix p := by
  induction p using List.reverseRecOn with
  | nil =>
    intro k hk
    simp [trailingTrue, leadingTrue] at hk
    subst hk
    simp
  | append_singleton p e ih =>
    intro k hk
    rw [trailingTrue_concat] at hk
    by_cases he : e = Ev.frame (some true)
    · rw [if_pos he] at hk
      cases k with
      | zero => simp
      | succ k' =>
        obtain ⟨q, hq⟩ := ih k' (by omega)
        refine ⟨q, ?_⟩
        rw [List.replicate_succ', he, ← List.append_assoc, hq]
    · rw [if_neg he] at hk
      have hk0 : k = 0 := by omega
      subst hk0
      simp

theorem trans_persists_frames : ∀ (q : List Ev) (s : SeqState),
    (∀ e ∈ q, e ≠ Ev.timer) → s.transitioning = true →
    (q.foldl step s).transitioning = true
  | [], _, _, h => h
  | e :: es, s, hq, h => by
    rw [List.foldl_cons]
    have hs : step s e = s := by
      rcases e with v | _
      · exact stepFrame_skip_trans h v
      · exact absurd rfl (hq Ev.timer (by simp))
    rw [hs]
    exact trans_persists_frames es s (fun e he => hq e (by simp [he])) h

theorem five_matches_transition : ∀ (n : Nat) (s : SeqState),
    s.active = true → s.transitioning = false → s.counter ≤ 4 →
    5 ≤ s.counter + n →
    ((List.replicate n (Ev.frame (some true))).foldl step s).transitioning =
      true
  | 0, s, _, _, hle, hth => absurd hth (by omega)
  | n + 1, s, hact, htr, hle, hth => by
    rw [List.replicate_succ, List.foldl_cons]
    by_cases h5 : 5 ≤ s.counter + 1
    · rw [show step s (Ev.frame (some true)) = stepFrame s (some true) from
        rfl, stepFrame_match_hit hact htr h5]
      exact trans_persists_frames _ _ (by simp) rfl
    · rw [show step s (Ev.frame (some true)) = stepFrame s (some true) from
        rfl, stepFrame_match_miss hact htr h5]
      exact five_matches_transition n _ hact htr
        (show s.counter + 1 ≤ 4 by omega)
        (show s.counter + 1 + n ≥ 5 by omega)

end VSHater

namespace VSHater

/-- C1: the three-stage sequencer.  (i) The canonical run — exactly 5
consecutive matching frames per stage followed by the transition timeout,
three times, and nothing more — reaches `complete`.  (ii) Conversely,
`complete` is reached only after exactly 3 stage-matched transitions.
(iii) A stage transitions to matched exactly on a matching frame processed
while detection is active and no transition is pending with the confidence
counter at threshold − 1 = 4, (iv) in which case (on any trace the source
can produce) the last 5 events are 5 consecutive matching frames; (v) and
5 consecutive matching frames from any processed state always reach
matched.  (vi) The stage cursor never exceeds the number of matched
transitions, and (vii) the transition matching stage k happens while the
cursor is at k — so stage N+1 never begins classification before stage N
is matched, and the stages match in cursor order 0, 1, 2. -/
theorem sequencer_stage_progression :
    (run canonicalTrace).complete = true ∧
    (∀ p : List Ev, (run p).complete = true → numMatched p = 3) ∧
    (∀ (p : List Ev) (e : Ev), matchedAt p e ↔
      ((run p).active = true ∧ (run p).transitioning = false ∧
        e = Ev.frame (some true) ∧ (run p).counter = 4)) ∧
    (∀ (p : List Ev) (e : Ev), validFrom initSeq (p ++ [e]) = true →
      matchedAt p e →
      (List.replicate 5 (Ev.frame (some true))).IsSuffix (p ++ [e])) ∧
    (∀ p : List Ev, (run p).active = true → (run p).transitioning = false →
      (run (p ++ List.replicate 5 (Ev.frame (some true)))).transitioning =
        true) ∧
    (∀ p : List Ev, (run p).imageIndex ≤ numMatched p) ∧
    (∀ (p : List Ev) (e : Ev), matchedAt p e →
      (run p).imageIndex = numMatched p) := by
  refine ⟨by decide, complete_numMatched, matchedAt_iff, ?_, ?_,
    imageIndex_le_numMatched, matchedAt_imageIndex⟩
  · intro p e hv hm
    rw [matchedAt_iff] at hm
    obtain ⟨hact, htr, rfl, hcnt⟩ := hm
    rw [validFrom_append] at hv
    simp only [Bool.and_eq_true] at hv
    have h4le : 4 ≤ trailingTrue p := by
      have := counter_le_trailing p hv.1 htr
      omega
    obtain ⟨q, hq⟩ := trailing_suffix p 4 h4le
    refine ⟨q, ?_⟩
    rw [List.replicate_succ', ← List.append_assoc, hq]
  · intro p hact htr
    rw [run_append]
    obtain ⟨_, _, _, _, _, _, hc4, _⟩ := seqInv_run_facts p
    exact five_matches_transition 5 (run p) hact htr (hc4 htr) (by omega)

/-- C1, witness: the sequencer theorem instantiated on concrete traces: the
canonical run completes with 3 matched stages; after 4 matching frames the
5th matches the stage; that point carries the 5-consecutive-frame suffix;
and 5 matching frames from the initial state reach matched. -/
theorem sequencer_stage_progression_witness :
    (run canonicalTrace).complete = true ∧
    numMatched canonicalTrace = 3 ∧
    matchedAt (List.replicate 4 (Ev.frame (some true)))
      (Ev.frame (some true)) ∧
    (List.replicate 5 (Ev.frame (some true))).IsSuffix
      (List.replicate 4 (Ev.frame (some true)) ++ [Ev.frame (some true)]) ∧
    (run ([] ++ List.replicate 5 (Ev.frame (some true)))).transitioning =
      true := by
  obtain ⟨ha, hb, hc, hd, he, _, _⟩ := sequencer_stage_progression
  have hm : matchedAt (List.replicate 4 (Ev.frame (some true)))
      (Ev.frame (some true)) :=
    (hc _ _).mpr ⟨by decide, by decide, rfl, by decide⟩
  exact ⟨ha, hb canonicalTrace ha, hm, hd _ _ (by decide) hm,
    he [] (by decide) (by decide)⟩

/-- C2: on every processed frame — detection active and no transition in
progress, so `onPoseResults` actually consults the classifier — whose
verdict is no-match, or on which landmarks are absent, the confidence
counter is 0 immediately afterwards, regardless of its value before. -/
theorem counter_resets_on_missed_frame (p : List Ev) (v : Option Bool)
    (hact : (run p).active = true) (htr : (run p).transitioning = false)
    (hv : v = none ∨ v = some false) :
    (run (p ++ [Ev.frame v])).counter = 0 := by
  rw [run_concat,
    show step (run p) (Ev.frame v) = stepFrame (run p) v from rfl,
    stepFrame_reset hact htr v hv]

/-- C2, witness: after 3 consecutive matching frames the counter is 3; one
frame with absent landmarks resets it to 0. -/
theorem counter_resets_on_missed_frame_witness :
    (run (List.replicate 3 (Ev.frame (some true)))).counter = 3 ∧
    (run (List.replicate 3 (Ev.frame (some true)) ++
      [Ev.frame none])).counter = 0 :=
  ⟨by decide, counter_resets_on_missed_frame _ none (by decide) (by decide)
    (Or.inl rfl)⟩

end VSHater
